import Mathlib

/-!
# Verification of the FabEdge operator and connector against its specification

This development embeds, in Lean, the parts of the FabEdge code base that the
specification's testable claims are about:

* `pkg/operator/options.go` — startup validation (`Options.Validate`),
  completion (`Options.Complete`) and endpoint recording
  (`Options.recordEndpoints`);
* the connector manager (`Manager.Start`, `Manager.gracefulShutdown`) — the
  periodic route/tunnel tasks and the shutdown path;
* the agent certificate handler (`certHandler.Do`), modelled from the spec
  since only its test is in scope.

Machine integers are embedded as `Nat` (durations are nanoseconds, IPv4
addresses are numbers below `2 ^ 32`).  Fallible operations return `Option`
or `Except`.  Effectful connector tasks are embedded as functions from the
results of their external calls to the list of dataplane actions performed.
-/

namespace Fabedge

/-! ## IPv4 CIDR parsing and membership, after Go `net.ParseCIDR` / `IPNet.Contains`

`net.ParseCIDR "a.b.c.d/n"` yields the literal address and the masked
network.  We embed IPv4 addresses as naturals below `2 ^ 32`; masking keeps
the top `len` bits.  Leading zeros in an octet are rejected (as Go's parser
does for IPv4 addresses).
-/

/-- Split a character list at every occurrence of `sep`
(the semantics of Go's split on a one-character separator). -/
def splitOnChar (sep : Char) : List Char → List (List Char)
  | [] => [[]]
  | c :: rest =>
    match splitOnChar sep rest with
    | [] => [[]]
    | g :: gs => if c = sep then [] :: g :: gs else (c :: g) :: gs

/-- Numeric value of a decimal digit character. -/
def digitVal (c : Char) : Nat := c.toNat - 48

/-- Value of a decimal digit string. -/
def decimalValue (cs : List Char) : Nat :=
  cs.foldl (fun acc c => acc * 10 + digitVal c) 0

/-- Parse one decimal octet (0–255, no leading zeros). -/
def parseByte (cs : List Char) : Option Nat :=
  if cs.length = 0 ∨ 3 < cs.length then none
  else if 1 < cs.length ∧ cs.head? = some '0' then none
  else if cs.all Char.isDigit then
    if decimalValue cs ≤ 255 then some (decimalValue cs) else none
  else none

/-- Parse a dotted-quad IPv4 address into its 32-bit value. -/
def parseIPv4 (cs : List Char) : Option Nat :=
  match splitOnChar '.' cs with
  | [a, b, c, d] =>
    match parseByte a, parseByte b, parseByte c, parseByte d with
    | some a, some b, some c, some d => some (((a * 256 + b) * 256 + c) * 256 + d)
    | _, _, _, _ => none
  | _ => none

/-- Parse the prefix length after the slash (0–32 for IPv4). -/
def parsePrefixLen (cs : List Char) : Option Nat :=
  if cs.length = 0 ∨ 2 < cs.length then none
  else if cs.all Char.isDigit then
    if decimalValue cs ≤ 32 then some (decimalValue cs) else none
  else none

/-- Go's `net.IPNet` for IPv4: the masked network address and prefix length. -/
structure IPNet where
  base : Nat
  len : Nat
  deriving Repr, DecidableEq

/-- Keep the top `len` bits of a 32-bit address (`ip & mask` in Go). -/
def maskAddr (ip len : Nat) : Nat :=
  ip / 2 ^ (32 - len) * 2 ^ (32 - len)

/-- Go `IPNet.Contains`: the address agrees with the network on the top `len` bits. -/
def IPNet.contains (n : IPNet) (a : Nat) : Bool :=
  a / 2 ^ (32 - n.len) == n.base / 2 ^ (32 - n.len)

/-- Go `net.ParseCIDR`: returns the literal address together with the masked network. -/
def parseCIDR (s : String) : Option (Nat × IPNet) :=
  match splitOnChar '/' s.data with
  | [ipStr, lenStr] =>
    match parseIPv4 ipStr, parsePrefixLen lenStr with
    | some ip, some len => some (ip, ⟨maskAddr ip len, len⟩)
    | _, _ => none
  | _ => none

/-- Two networks overlap when some address lies in both.  (This is the
specification's notion of CIDR overlap, used to judge the code's check.) -/
def Overlaps (n1 n2 : IPNet) : Prop :=
  ∃ a, n1.contains a ∧ n2.contains a

/-! ## `Options.Validate`, leader-election block (`options.go:356-373`)

Durations are nanoseconds as `Nat`.  Go computes
`time.Duration(1.2 * float64(retryPeriod))`; the float multiply-and-truncate
is embedded as the exact `6 * retryPeriod / 5` (floor), which agrees with the
Go value on the inputs used below. -/

/-- One nanosecond-denominated second, i.e. Go's `time.Second`. -/
def second : Nat := 1000000000

/-- The jittered retry period `time.Duration(JitterFactor*float64(retryPeriod))`
with `JitterFactor = 1.2`. -/
def jitteredRetryPeriod (retryPeriod : Nat) : Nat :=
  6 * retryPeriod / 5

/-- The leader-election checks of `Options.Validate`: first failing check's
message, or `none` when all pass. -/
def validateLeaderElection (leaseDuration renewDeadline retryPeriod : Nat) : Option String :=
  if leaseDuration ≤ renewDeadline then
    some "leaseDuration must be greater than renewDeadline"
  else if renewDeadline ≤ jitteredRetryPeriod retryPeriod then
    some "renewDeadline must be greater than retryPeriod*JitterFactor"
  else if leaseDuration < second then
    some "leaseDuration must be greater than 1 second"
  else if renewDeadline < second then
    some "renewDeadline must be greater than 1 second"
  else if retryPeriod < second then
    some "retryPeriod must be greater than 1 second"
  else none

/-- The chain stated by the spec:
`leaseDuration > renewDeadline > retryPeriod * 1.2 ≥ 1s`. -/
def leaderElectionChainSpec (leaseDuration renewDeadline retryPeriod : Nat) : Prop :=
  leaseDuration > renewDeadline ∧
  renewDeadline > jitteredRetryPeriod retryPeriod ∧
  jitteredRetryPeriod retryPeriod ≥ second

instance (l r p : Nat) : Decidable (leaderElectionChainSpec l r p) := by
  unfold leaderElectionChainSpec; infer_instance

/-! ## `Options.Validate`, cluster-name checks (`options.go:291-297`)

`dns1123Reg` is the Go regular expression
`^[a-z0-9]([-a-z0-9]*[a-z0-9])?(\.[a-z0-9]([-a-z0-9]*[a-z0-9])?)*$`.
Its language is: one or more groups separated by dots, where each group is a
nonempty string over `[a-z0-9-]` that neither starts nor ends with a dash.
`dns1123RegMatch` denotes exactly that language, structurally. -/

/-- A character of the class `[a-z0-9]`. -/
def labelChar (c : Char) : Bool :=
  ('a' ≤ c && c ≤ 'z') || ('0' ≤ c && c ≤ '9')

/-- The regex fragment `[-a-z0-9]*[a-z0-9]`: nonempty, every character in
`[a-z0-9-]`, ending in `[a-z0-9]`. -/
def tailMatch : List Char → Bool
  | [] => false
  | [c] => labelChar c
  | c :: cs => (labelChar c || c == '-') && tailMatch cs

/-- The regex group `[a-z0-9]([-a-z0-9]*[a-z0-9])?`. -/
def groupMatch : List Char → Bool
  | [] => false
  | c :: rest => labelChar c && (rest.isEmpty || tailMatch rest)

/-- The test `dns1123Reg.MatchString`: every dot-separated group matches. -/
def dns1123RegMatch (s : String) : Bool :=
  (splitOnChar '.' s.data).all groupMatch

/-- The cluster-name checks of `Options.Validate`: empty name, then the
regular expression. -/
def validateClusterName (cluster : String) : Option String :=
  if cluster.length = 0 then some "a cluster name is required"
  else if !dns1123RegMatch cluster then some ("invalid cluster name: " ++ cluster)
  else none

/-- An RFC-1123 DNS label (what the spec says the cluster name must be):
at most 63 characters of `[a-z0-9-]`, nonempty, neither starting nor ending
with a dash — and, being a single label, containing no dot. -/
def isRFC1123Label (s : String) : Bool :=
  s.length ≤ 63 && groupMatch s.data

/-! ## `Options.Validate`, subnet checks (`options.go:329-347`) -/

/-- The connector-subnet loop: `Validate` rejects the first subnet that
fails `net.ParseCIDR`. -/
def validateProvidedSubnets (providedSubnets : List String) : Option String :=
  match providedSubnets.find? (fun s => (parseCIDR s).isNone) with
  | some s => some ("invalid subnet: " ++ s)
  | none => none

/-- The edge-IPAM block of `Options.Validate`: when edge IPAM is enabled,
parse `EdgePodCIDR` and reject it if any connector-provided subnet overlaps
(`subnet.Contains(ip2) || subnet2.Contains(ip)` on the literal addresses).
A subnet that fails to parse inside this loop is skipped, mirroring the
ignored error in the source; `Validate` has already rejected such subnets
in the preceding loop. -/
def validateEdgePodCIDR (enableEdgeIPAM : Bool) (edgePodCIDR : String)
    (providedSubnets : List String) : Option String :=
  if enableEdgeIPAM then
    match parseCIDR edgePodCIDR with
    | none => some ("invalid edge pod cidr: " ++ edgePodCIDR)
    | some (ip, subnet) =>
      if providedSubnets.any (fun s =>
          match parseCIDR s with
          | some (ip2, subnet2) => subnet.contains ip2 || subnet2.contains ip
          | none => false) then
        some "EdgePodCIDR is overlaped with connector subnets"
      else none
  else none

/-! ## `EndpointStore` and `Options.recordEndpoints` (`options.go:555-600`)

The store implementation (`pkg/operator/store`) is not among the sources;
per the spec (§3, §4.2) it is an in-memory registry keyed by endpoint name,
which we embed as an association list. -/

/-- The `apis.Endpoint` / `types.Endpoint` record: one tunnel participant. -/
structure TunnelEndpoint where
  name : String
  id : String
  publicAddresses : List String
  subnets : List String
  nodeSubnets : List String
  deriving Repr, DecidableEq

/-- Modelled from the spec: `EndpointStore.SaveEndpoint` (store package not
in scope) — "in-memory registry keyed by endpoint name"; saving keyed by
`ep.name`, replacing any previous entry of that name. -/
def saveEndpoint (store : List TunnelEndpoint) (ep : TunnelEndpoint) : List TunnelEndpoint :=
  if store.any (fun e => e.name == ep.name) then
    store.map (fun e => if e.name == ep.name then ep else e)
  else
    store ++ [ep]

/-- The `types.Community` record: a named member set. -/
structure Community where
  name : String
  members : List String
  deriving Repr, DecidableEq

/-- Modelled from the spec: `EndpointStore.SaveCommunity` — registry keyed
by community name. -/
def saveCommunity (store : List Community) (c : Community) : List Community :=
  if store.any (fun e => e.name == c.name) then
    store.map (fun e => if e.name == c.name then c else e)
  else
    store ++ [c]

/-- The state `recordEndpoints` mutates: the store's two registries and the
subnets recorded into the allocator (`Allocator.Record`). -/
structure RecordState where
  endpoints : List TunnelEndpoint
  communities : List Community
  allocatorRecords : List IPNet
  deriving Repr, DecidableEq

/-- The per-node body of the loop in `recordEndpoints` (`options.go:580-597`):
skip the endpoint when `publicAddresses`, `subnets` or `nodeSubnets` is
empty; otherwise record every parseable subnet into the allocator (parse
failures are logged and skipped) and save the endpoint. -/
def recordNode (st : RecordState) (ep : TunnelEndpoint) : RecordState :=
  if ep.publicAddresses.isEmpty || ep.subnets.isEmpty || ep.nodeSubnets.isEmpty then
    st
  else
    { st with
      allocatorRecords := ep.subnets.foldl (fun recs cidr =>
        match parseCIDR cidr with
        | none => recs
        | some (_, subnet) => recs ++ [subnet]) st.allocatorRecords
      endpoints := saveEndpoint st.endpoints ep }

/-- Embedding of `Options.recordEndpoints`: save every listed community; then, only when
edge IPAM is enabled, run the endpoint loop over the synthesized endpoints
(`opts.NewEndpoint node` for each listed edge node). -/
def recordEndpoints (enableEdgeIPAM : Bool) (st : RecordState)
    (communities : List Community) (endpoints : List TunnelEndpoint) : RecordState :=
  let st := { st with communities := communities.foldl saveCommunity st.communities }
  if !enableEdgeIPAM then st
  else endpoints.foldl recordNode st

/-! ## Connector manager (`Manager.Start`, `Manager.gracefulShutdown`)

Each periodic task is embedded as a function from the results of its
external calls (IPsec daemon, router, membership client) to the list of
dataplane actions it performs on that tick. -/

/-- The `tunnel.ConnConfig` record, abstracted to an identifying name and the subnets
the route strategies consume. -/
structure ConnConfig where
  name : String
  localSubnets : List String
  remoteSubnets : List String
  deriving Repr, DecidableEq

/-- The `routing.ConnectorPrefixes` record: the payload gossiped to cloud agents. -/
structure ConnectorPrefixes where
  localPrefixes : List String
  remotePrefixes : List String
  deriving Repr, DecidableEq

/-- One dataplane action performed by the connector manager.
`terminateTunnels` and `removeForwardChain` are the actions the shutdown
path is claimed never to perform (they belong to `syncConnections` and to
chain management elsewhere in the manager). -/
inductive Action where
  | syncRoutes (conns : List ConnConfig)
  | cleanRoutes (conns : List ConnConfig)
  | cleanSNatRules
  | terminateTunnels
  | removeForwardChain
  | broadcast (payload : ConnectorPrefixes)
  deriving Repr, DecidableEq

/-- The external-call results available to one sync tick. -/
structure TickEnv where
  isActive : Except String Bool
  syncConnectionsResult : Except String Unit
  connectorPrefixes : Except String ConnectorPrefixes
  deriving Repr

/-- Embedding of `routeTaskFn` (`Manager.Start`): query `m.tm.IsActive()`; on error do
nothing; when active, `SyncRoutes` over the current connections; when
inactive, `CleanRoutes` over them. -/
def routeTask (env : TickEnv) (connections : List ConnConfig) : List Action :=
  match env.isActive with
  | .error _ => []
  | .ok true => [.syncRoutes connections]
  | .ok false => [.cleanRoutes connections]

/-- Embedding of `broadcastToAgents` (`Manager.Start`): get the connector prefixes; on
error, or when either prefix list is empty, broadcast nothing; otherwise
broadcast the marshalled payload. -/
def broadcastToAgents (env : TickEnv) : List Action :=
  match env.connectorPrefixes with
  | .error _ => []
  | .ok cp =>
    if cp.remotePrefixes.length < 1 || cp.localPrefixes.length < 1 then []
    else [.broadcast cp]

/-- Embedding of `tunnelTaskFn` (`Manager.Start`): when `m.syncConnections()` fails, only
log; when it succeeds, run `broadcastToAgents`.  (The tunnel Load/Terminate
actions happen inside `syncConnections` and are abstracted by its result.) -/
def tunnelTask (env : TickEnv) : List Action :=
  match env.syncConnectionsResult with
  | .error _ => []
  | .ok _ => broadcastToAgents env

/-- Embedding of `Manager.gracefulShutdown` (invoked by `Manager.Start` after receiving
SIGINT or SIGTERM, right before the process exits): clean the routes of the
current connections, then clean the SNAT iptables rules.  Each step's error
is only logged. -/
def gracefulShutdown (connections : List ConnConfig) : List Action :=
  [.cleanRoutes connections, .cleanSNatRules]

/-! ## `Options.Complete` (`options.go:151-288`)

Embedded as a function from the results of its external calls to the
returned error and to which of the `Options` output fields got assigned. -/

/-- Results of the external calls `Options.Complete` makes, in source
order.  Calls not reached on a given run are simply unused. -/
structure CompleteEnv where
  cniType : String
  clusterRole : String
  newAllocator : Except String Unit
  getConfig : Except String Unit
  newKubeClient : Except String Unit
  newManager : Except String Unit
  createCertManager : Except String Unit
  getHostCACert : Except String Unit
  initAPIClient : Except String Unit
  newRemoteManager : Except String Unit
  newAPIServer : Except String Unit
  loadKeyPair : Except String Unit
  deriving Repr

/-- What `Options.Complete` returns, and which output fields it assigned. -/
structure CompleteResult where
  returnedError : Option String
  managerSet : Bool
  storeSet : Bool
  apiServerSet : Bool
  apiClientSet : Bool
  deriving Repr, DecidableEq

/-- The certificate-manager stage of `Complete` (`options.go:202-235`):
host role uses `createCertManager`; member role fetches the host CA cert,
initializes the API client, then builds a remote cert manager.  Returns the
error (if any) and whether `opts.APIClient` got assigned. -/
def completeCertStage (env : CompleteEnv) : Option String × Bool :=
  if env.clusterRole = "host" then
    match env.createCertManager with
    | .error e => (some e, false)
    | .ok _ => (none, false)
  else
    match env.getHostCACert with
    | .error e => (some e, false)
    | .ok _ =>
      match env.initAPIClient with
      | .error e => (some e, false)
      | .ok _ =>
        match env.newRemoteManager with
        | .error e => (some e, true)
        | .ok _ => (none, true)

/-- Embedding of `Options.Complete`: the CNI switch, kubeconfig loading, client and
manager construction, the certificate stage, store creation, and (host
only) API-server construction.  Note `options.go:181-185`: when
`config.GetConfig()` fails the error is logged and `Complete` returns
`nil`. -/
def complete (env : CompleteEnv) : CompleteResult :=
  let cniStage : Except String Unit :=
    if env.cniType = "calico" then env.newAllocator
    else if env.cniType = "flannel" then .ok ()
    else .error ("unknown CNI: " ++ env.cniType)
  match cniStage with
  | .error e => ⟨some e, false, false, false, false⟩
  | .ok _ =>
    match env.getConfig with
    | .error _ => ⟨none, false, false, false, false⟩
    | .ok _ =>
      match env.newKubeClient with
      | .error e => ⟨some e, false, false, false, false⟩
      | .ok _ =>
        match env.newManager with
        | .error e => ⟨some e, false, false, false, false⟩
        | .ok _ =>
          match completeCertStage env with
          | (some e, apiClientSet) => ⟨some e, true, false, false, apiClientSet⟩
          | (none, apiClientSet) =>
            if env.clusterRole = "host" then
              match env.newAPIServer with
              | .error e => ⟨some e, true, true, false, apiClientSet⟩
              | .ok _ =>
                match env.loadKeyPair with
                | .error e => ⟨some e, true, true, true, apiClientSet⟩
                | .ok _ => ⟨none, true, true, true, apiClientSet⟩
            else ⟨none, true, true, false, apiClientSet⟩

/-! ## Agent certificate handler (`certHandler.Do`)

The handler's implementation (`pkg/operator/controllers/agent`) is not among
the sources; only its test is.  The model below follows the spec. -/

/-- The two extended key usages the agent certs carry. -/
inductive ExtKeyUsage where
  | serverAuth
  | clientAuth
  deriving Repr, DecidableEq

/-- Modelled from the spec: an issued X.509 certificate, abstracted to the
facts the claims are about — its CN, whether it chains to the CA, its
extended key usages and its validity window (nanosecond timestamps). -/
structure Cert where
  commonName : String
  issuedByCA : Bool
  extKeyUsages : List ExtKeyUsage
  notBefore : Nat
  notAfter : Nat
  deriving Repr, DecidableEq

/-- The per-node TLS secret, with fields `ca.crt` and `tls.crt`
(the private key is implicit). -/
structure TLSSecret where
  secretName : String
  caCert : String
  cert : Cert
  deriving Repr, DecidableEq

/-- Modelled from the spec: `CertManager.VerifyCert(certPEM, extKeyUsages)`
(`pkg/util/cert` not in scope) — the certificate chains to the CA, carries
each requested extended key usage, and is within its validity window. -/
def verifyCert (c : Cert) (now : Nat) (usages : List ExtKeyUsage) : Bool :=
  c.issuedByCA && usages.all (fun u => c.extKeyUsages.contains u) &&
    (c.notBefore ≤ now && now < c.notAfter)

/-- Modelled from the spec: `getCertSecretName` — the deterministic secret
name `agent-node-tls` for a node (§6: the per-node TLS secret is named
deterministically from the node name). -/
def getCertSecretName (node : String) : String :=
  "fabedge-agent-" ++ node ++ "-tls"

/-- Modelled from the spec: the freshly issued per-node secret — CN = the
node's endpoint ID, ExtKeyUsages = ServerAuth and ClientAuth, signed by the
CA, valid for `certValidPeriod`, the CA certificate in the `ca.crt` field. -/
def freshAgentSecret (caCertPEM : String) (certValidPeriod : Nat)
    (endpointID : String → String) (now : Nat) (node : String) : TLSSecret :=
  { secretName := getCertSecretName node
    caCert := caCertPEM
    cert :=
      { commonName := endpointID node
        issuedByCA := true
        extKeyUsages := [.serverAuth, .clientAuth]
        notBefore := now
        notAfter := now + certValidPeriod } }

/-- Modelled from the spec: `certHandler.Do`
(`pkg/operator/controllers/agent/cert.go` not in scope) — ensure the TLS
secret for a node: when the stored secret is missing, fails certificate
verification (in particular when expired), carries the wrong CA cert or the
wrong name, issue and store `freshAgentSecret`; otherwise keep the stored
secret. -/
def certHandlerDo (caCertPEM : String) (certValidPeriod : Nat)
    (endpointID : String → String) (now : Nat) (node : String)
    (existing : Option TLSSecret) : TLSSecret :=
  match existing with
  | none => freshAgentSecret caCertPEM certValidPeriod endpointID now node
  | some s =>
    if s.secretName == getCertSecretName node && s.caCert == caCertPEM &&
        verifyCert s.cert now [.serverAuth, .clientAuth] then
      s
    else
      freshAgentSecret caCertPEM certValidPeriod endpointID now node

/-! ## Concrete sample inputs used by the witness theorems -/

/-- A tick on which tunnel sync succeeds but the router reports no local
prefixes. -/
def tickEnvNoLocalPrefixes : TickEnv :=
  { isActive := .ok true
    syncConnectionsResult := .ok ()
    connectorPrefixes := .ok { localPrefixes := [], remotePrefixes := ["10.1.0.0/24"] } }

/-- A tick on which the IPsec daemon reports an active tunnel. -/
def tickEnvActive : TickEnv :=
  { isActive := .ok true
    syncConnectionsResult := .ok ()
    connectorPrefixes := .ok { localPrefixes := ["192.168.1.0/24"], remotePrefixes := ["10.1.0.0/24"] } }

/-- A sample tunnel connection. -/
def connSample : ConnConfig :=
  { name := "bj.edge1", localSubnets := ["192.168.1.0/24"], remoteSubnets := ["10.10.1.0/24"] }

/-- A `Complete` run on which only loading the kubeconfig fails. -/
def completeEnvBadKubeconfig : CompleteEnv :=
  { cniType := "flannel"
    clusterRole := "host"
    newAllocator := .ok ()
    getConfig := .error "failed to load kubeconfig"
    newKubeClient := .ok ()
    newManager := .ok ()
    createCertManager := .ok ()
    getHostCACert := .ok ()
    initAPIClient := .ok ()
    newRemoteManager := .ok ()
    newAPIServer := .ok ()
    loadKeyPair := .ok () }

/-- An edge endpoint with all required fields populated. -/
def epEdge1 : TunnelEndpoint :=
  { name := "bj.edge1"
    id := "C=CN, O=fabedge.io, CN=edge1"
    publicAddresses := ["10.40.20.181"]
    subnets := ["2.2.1.128/26"]
    nodeSubnets := ["10.40.20.181/32"] }

/-- An edge endpoint with no public address. -/
def epEdge2NoAddress : TunnelEndpoint :=
  { name := "bj.edge2"
    id := "C=CN, O=fabedge.io, CN=edge2"
    publicAddresses := []
    subnets := ["2.2.2.0/26"]
    nodeSubnets := ["10.40.20.182/32"] }

/-- An edge endpoint whose second subnet is not a valid CIDR (octet 300). -/
def epEdge3BadSubnet : TunnelEndpoint :=
  { name := "bj.edge3"
    id := "C=CN, O=fabedge.io, CN=edge3"
    publicAddresses := ["10.40.20.183"]
    subnets := ["2.2.3.0/26", "10.40.300.0/24"]
    nodeSubnets := ["10.40.20.183/32"] }

/-! ## Helper lemmas -/

lemma parsePrefixLen_le {cs : List Char} {len : Nat}
    (h : parsePrefixLen cs = some len) : len ≤ 32 := by
  unfold parsePrefixLen at h
  split at h
  · exact absurd h (by simp)
  · split at h
    · split at h
      · injection h with h
        omega
      · exact absurd h (by simp)
    · exact absurd h (by simp)

lemma parseCIDR_shape {s : String} {ip : Nat} {n : IPNet}
    (h : parseCIDR s = some (ip, n)) :
    n.base = maskAddr ip n.len ∧ n.len ≤ 32 := by
  unfold parseCIDR at h
  split at h
  · split at h
    · next hip hlen =>
      injection h with h
      injection h with h1 h2
      subst h1
      subst h2
      exact ⟨rfl, parsePrefixLen_le hlen⟩
    · exact absurd h (by simp)
  · exact absurd h (by simp)

lemma parseCIDR_shape2 {s : String} {ip b l : Nat}
    (h : parseCIDR s = some (ip, ⟨b, l⟩)) :
    b = maskAddr ip l ∧ l ≤ 32 :=
  parseCIDR_shape h

lemma contains_maskAddr (ip len : Nat) :
    IPNet.contains ⟨maskAddr ip len, len⟩ ip = true := by
  unfold IPNet.contains maskAddr
  simp [Nat.mul_div_cancel _ (Nat.two_pow_pos (32 - len))]

lemma contains_mask_iff (ip len x : Nat) :
    IPNet.contains ⟨maskAddr ip len, len⟩ x = true ↔
      x / 2 ^ (32 - len) = ip / 2 ^ (32 - len) := by
  unfold IPNet.contains maskAddr
  simp [Nat.mul_div_cancel _ (Nat.two_pow_pos (32 - len))]

lemma div_agree_of_le {a ip1 ip2 l1 l2 : Nat} (hl : l1 ≤ l2) (h32 : l2 ≤ 32)
    (h1 : a / 2 ^ (32 - l1) = ip1 / 2 ^ (32 - l1))
    (h2 : a / 2 ^ (32 - l2) = ip2 / 2 ^ (32 - l2)) :
    ip2 / 2 ^ (32 - l1) = ip1 / 2 ^ (32 - l1) := by
  have hk : 32 - l1 = (32 - l2) + (l2 - l1) := by omega
  calc ip2 / 2 ^ (32 - l1)
      = ip2 / 2 ^ (32 - l2) / 2 ^ (l2 - l1) := by
        rw [hk, pow_add, Nat.div_div_eq_div_mul]
    _ = a / 2 ^ (32 - l2) / 2 ^ (l2 - l1) := by rw [h2]
    _ = a / 2 ^ (32 - l1) := by rw [hk, pow_add, Nat.div_div_eq_div_mul]
    _ = ip1 / 2 ^ (32 - l1) := h1

/-- Two parsed CIDRs overlap exactly when one's network contains the
other's literal address — the containment test `Options.Validate` runs. -/
lemma overlaps_iff_contains {ip1 ip2 l1 l2 : Nat} (h1 : l1 ≤ 32) (h2 : l2 ≤ 32) :
    Overlaps ⟨maskAddr ip1 l1, l1⟩ ⟨maskAddr ip2 l2, l2⟩ ↔
      (IPNet.contains ⟨maskAddr ip1 l1, l1⟩ ip2 = true ∨
       IPNet.contains ⟨maskAddr ip2 l2, l2⟩ ip1 = true) := by
  constructor
  · rintro ⟨a, ha1, ha2⟩
    rw [contains_mask_iff] at ha1 ha2
    rcases Nat.le_total l1 l2 with hl | hl
    · exact Or.inl ((contains_mask_iff ip1 l1 ip2).mpr (div_agree_of_le hl h2 ha1 ha2))
    · exact Or.inr ((contains_mask_iff ip2 l2 ip1).mpr (div_agree_of_le hl h1 ha2 ha1))
  · rintro (h | h)
    · exact ⟨ip2, h, contains_maskAddr ip2 l2⟩
    · exact ⟨ip1, contains_maskAddr ip1 l1, h⟩

lemma saveEndpoint_mem {store : List TunnelEndpoint} {ep e : TunnelEndpoint}
    (h : e ∈ saveEndpoint store ep) : e ∈ store ∨ e = ep := by
  unfold saveEndpoint at h
  split at h
  · rcases List.mem_map.mp h with ⟨x, hx, hxe⟩
    by_cases hname : (x.name == ep.name) = true
    · rw [if_pos hname] at hxe
      exact Or.inr hxe.symm
    · rw [if_neg hname] at hxe
      exact Or.inl (hxe ▸ hx)
  · rcases List.mem_append.mp h with h | h
    · exact Or.inl h
    · exact Or.inr (List.mem_singleton.mp h)

lemma recordNode_endpoints_mem {st : RecordState} {ep e : TunnelEndpoint}
    (h : e ∈ (recordNode st ep).endpoints) :
    e ∈ st.endpoints ∨
      (e = ep ∧ ep.publicAddresses ≠ [] ∧ ep.subnets ≠ [] ∧ ep.nodeSubnets ≠ []) := by
  unfold recordNode at h
  split at h
  · exact Or.inl h
  · next hcond =>
    simp only [Bool.or_eq_true, List.isEmpty_iff, not_or] at hcond
    rcases saveEndpoint_mem h with h | h
    · exact Or.inl h
    · exact Or.inr ⟨h, hcond.1.1, hcond.1.2, hcond.2⟩

lemma foldl_recordNode_inv (eps : List TunnelEndpoint) (st : RecordState)
    (hst : ∀ e ∈ st.endpoints,
      e.publicAddresses ≠ [] ∧ e.subnets ≠ [] ∧ e.nodeSubnets ≠ []) :
    ∀ e ∈ (eps.foldl recordNode st).endpoints,
      e.publicAddresses ≠ [] ∧ e.subnets ≠ [] ∧ e.nodeSubnets ≠ [] := by
  induction eps generalizing st with
  | nil => exact hst
  | cons ep rest ih =>
    refine ih (recordNode st ep) ?_
    intro e he
    rcases recordNode_endpoints_mem he with h | ⟨rfl, h1, h2, h3⟩
    · exact hst e h
    · exact ⟨h1, h2, h3⟩

lemma foldl_record_subnets (subnets : List String) (recs : List IPNet) :
    subnets.foldl (fun recs cidr =>
      match parseCIDR cidr with
      | none => recs
      | some (_, subnet) => recs ++ [subnet]) recs =
    recs ++ subnets.filterMap (fun c => (parseCIDR c).map Prod.snd) := by
  induction subnets generalizing recs with
  | nil => simp
  | cons c rest ih =>
    simp only [List.foldl_cons, List.filterMap_cons]
    rcases h : parseCIDR c with _ | ⟨ip, n⟩ <;> simp [ih]

lemma tailMatch_chars {cs : List Char} (h : tailMatch cs = true) :
    ∀ c ∈ cs, (labelChar c || c == '-') = true := by
  induction cs with
  | nil => intro c hc; simp at hc
  | cons c rest ih =>
    intro d hd
    rcases rest with _ | ⟨r, rs⟩
    · simp only [tailMatch] at h
      rcases List.mem_singleton.mp hd with rfl
      simp [h]
    · simp only [tailMatch, Bool.and_eq_true] at h
      rcases List.mem_cons.mp hd with rfl | hd2
      · exact h.1
      · exact ih h.2 d hd2

lemma groupMatch_chars {cs : List Char} (h : groupMatch cs = true) :
    ∀ c ∈ cs, (labelChar c || c == '-') = true := by
  rcases cs with _ | ⟨c, rest⟩
  · intro c hc; simp at hc
  · simp only [groupMatch, Bool.and_eq_true, Bool.or_eq_true] at h
    intro d hd
    rcases List.mem_cons.mp hd with rfl | hd2
    · simp [h.1]
    · rcases h.2 with hrest | htail
      · rw [List.isEmpty_iff.mp hrest] at hd2
        simp at hd2
      · exact tailMatch_chars htail d hd2

lemma labelChar_dash_ne_dot {c : Char} (h : (labelChar c || c == '-') = true) :
    c ≠ '.' := by
  rintro rfl
  exact absurd h (by decide)

lemma splitOnChar_eq_self {sep : Char} {cs : List Char}
    (h : ∀ c ∈ cs, c ≠ sep) : splitOnChar sep cs = [cs] := by
  induction cs with
  | nil => rfl
  | cons c rest ih =>
    have hrest := ih (fun d hd => h d (List.mem_cons_of_mem _ hd))
    have hc := h c (List.mem_cons_self _ _)
    simp [splitOnChar, hrest, hc]

/-! ## The claims -/

/-- C1: every endpoint stored during startup endpoint recording
(`recordEndpoints`, from a fresh store) has non-empty `publicAddresses`,
`subnets` and `nodeSubnets`; endpoints with an empty field are skipped and
never stored. -/
theorem recordEndpoints_store_invariant (enableEdgeIPAM : Bool)
    (communities : List Community) (endpoints : List TunnelEndpoint) :
    ∀ e ∈ (recordEndpoints enableEdgeIPAM ⟨[], [], []⟩ communities endpoints).endpoints,
      e.publicAddresses ≠ [] ∧ e.subnets ≠ [] ∧ e.nodeSubnets ≠ [] := by
  unfold recordEndpoints
  split
  · intro e he
    simp at he
  · exact foldl_recordNode_inv endpoints _ (by intro e he; simp at he)

/-- C1 witness: with one well-formed endpoint and one with no public
address, the invariant holds of the stored one. -/
theorem recordEndpoints_store_invariant_witness :
    epEdge1.publicAddresses ≠ [] ∧ epEdge1.subnets ≠ [] ∧ epEdge1.nodeSubnets ≠ [] :=
  recordEndpoints_store_invariant true [] [epEdge1, epEdge2NoAddress] epEdge1 (by decide)

/-- C2: on a route-sync tick, an active IPsec daemon leads to `SyncRoutes`
over the current connections, an inactive one to `CleanRoutes`, and a
failed activity query to neither. -/
theorem routeTask_dispatch (env : TickEnv) (conns : List ConnConfig) :
    (env.isActive = .ok true →
      Action.syncRoutes conns ∈ routeTask env conns ∧
      Action.cleanRoutes conns ∉ routeTask env conns) ∧
    (env.isActive = .ok false →
      Action.cleanRoutes conns ∈ routeTask env conns ∧
      Action.syncRoutes conns ∉ routeTask env conns) ∧
    (∀ e, env.isActive = .error e → routeTask env conns = []) := by
  unfold routeTask
  rcases h : env.isActive with e | b
  · simp
  · cases b <;> simp

/-- C2 witness: on a tick with an active daemon, routes are synced and not
cleaned. -/
theorem routeTask_dispatch_witness :
    Action.syncRoutes [connSample] ∈ routeTask tickEnvActive [connSample] ∧
    Action.cleanRoutes [connSample] ∉ routeTask tickEnvActive [connSample] :=
  (routeTask_dispatch tickEnvActive [connSample]).1 rfl

/-- C3 counterexample: with leaseDuration 3s, renewDeadline 2s, retryPeriod
0.9s the chain stated by the spec holds (0.9s × 1.2 = 1.08s ≥ 1s), yet the
leader-election checks reject the triple (retryPeriod itself is below 1s). -/
theorem validateLeaderElection_chain_counterexample :
    leaderElectionChainSpec (3 * second) (2 * second) 900000000 ∧
    validateLeaderElection (3 * second) (2 * second) 900000000 ≠ none := by
  constructor
  · decide
  · decide

/-- C3 (amended): the leader-election checks pass iff
leaseDuration > renewDeadline > retryPeriod × 1.2 AND retryPeriod ≥ 1s. -/
theorem validateLeaderElection_ok_iff (l r p : Nat) :
    validateLeaderElection l r p = none ↔
      (r < l ∧ jitteredRetryPeriod p < r ∧ second ≤ p) := by
  unfold validateLeaderElection jitteredRetryPeriod second
  split_ifs with h1 h2 h3 h4 h5 <;> simp_all <;> omega

/-- C4: with edge IPAM enabled, a parseable `EdgePodCIDR` and parseable
connector-provided subnets, the check passes iff no provided subnet
overlaps the edge pod CIDR. -/
theorem validateEdgePodCIDR_iff_no_overlap (edgePodCIDR : String)
    (subnets : List String) (ip : Nat) (n : IPNet)
    (hparse : parseCIDR edgePodCIDR = some (ip, n))
    (_hall : ∀ s ∈ subnets, (parseCIDR s).isSome = true) :
    validateEdgePodCIDR true edgePodCIDR subnets = none ↔
      ∀ s ∈ subnets, ∀ ip2 n2, parseCIDR s = some (ip2, n2) → ¬ Overlaps n n2 := by
  obtain ⟨b, l⟩ := n
  obtain ⟨hb, hl⟩ := parseCIDR_shape2 hparse
  subst hb
  have key : ∀ s ip2 n2, parseCIDR s = some (ip2, n2) →
      ((IPNet.contains ⟨maskAddr ip l, l⟩ ip2 || n2.contains ip) = true ↔
        Overlaps ⟨maskAddr ip l, l⟩ n2) := by
    intro s ip2 n2 hps
    rcases n2 with ⟨b2, l2⟩
    obtain ⟨hb2, hl2⟩ := parseCIDR_shape2 hps
    subst hb2
    rw [Bool.or_eq_true]
    exact (overlaps_iff_contains hl hl2).symm
  simp only [validateEdgePodCIDR, hparse, if_true]
  split_ifs with hc
  · simp only [reduceCtorEq, false_iff, not_forall]
    rcases List.any_eq_true.mp hc with ⟨s, hs, hfs⟩
    rcases hps : parseCIDR s with _ | ⟨ip2, n2⟩
    · rw [hps] at hfs
      simp at hfs
    · rw [hps] at hfs
      push_neg
      exact ⟨s, hs, ip2, n2, hps, (key s ip2 n2 hps).mp hfs⟩
  · simp only [true_iff]
    intro s hs ip2 n2 hps hov
    apply hc
    refine List.any_eq_true.mpr ⟨s, hs, ?_⟩
    rw [hps]
    exact (key s ip2 n2 hps).mpr hov

/-- C4 witness: 10.20.0.0/16 does not overlap 192.168.0.0/24, and the check
passes. -/
theorem validateEdgePodCIDR_witness :
    validateEdgePodCIDR true "10.20.0.0/16" ["192.168.0.0/24"] = none := by
  refine (validateEdgePodCIDR_iff_no_overlap "10.20.0.0/16" ["192.168.0.0/24"]
    169082880 ⟨169082880, 16⟩ (by decide) (by decide)).mpr ?_
  intro s hs ip2 n2 hps
  simp only [List.mem_singleton] at hs
  subst hs
  rw [(by decide : parseCIDR "192.168.0.0/24" = some (3232235520, ⟨3232235520, 24⟩))] at hps
  injection hps with hps
  rw [Prod.ext_iff] at hps
  obtain ⟨h1, h2⟩ := hps
  subst h1
  subst h2
  rintro ⟨a, ha1, ha2⟩
  simp only [IPNet.contains, beq_iff_eq] at ha1 ha2
  norm_num at ha1 ha2
  omega

/-- C5: the shutdown path run on SIGINT/SIGTERM cleans the routes of the
current connections and the SNAT rules (routes first), and performs no
tunnel teardown and no FORWARD-chain removal. -/
theorem gracefulShutdown_actions (conns : List ConnConfig) :
    Action.cleanRoutes conns ∈ gracefulShutdown conns ∧
    Action.cleanSNatRules ∈ gracefulShutdown conns ∧
    (gracefulShutdown conns).indexOf (Action.cleanRoutes conns) <
      (gracefulShutdown conns).indexOf Action.cleanSNatRules ∧
    Action.terminateTunnels ∉ gracefulShutdown conns ∧
    Action.removeForwardChain ∉ gracefulShutdown conns := by
  unfold gracefulShutdown
  refine ⟨by simp, by simp, ?_, by simp, by simp⟩
  have hne : (Action.cleanRoutes conns == Action.cleanSNatRules) = false := by simp
  simp [List.indexOf, List.findIdx, List.findIdx.go, hne]

/-- C6 counterexample: a tick on which tunnel sync succeeds but the local
prefix list is empty broadcasts nothing, against the claim that every
successful sync tick broadcasts. -/
theorem tunnelTask_counterexample :
    tickEnvNoLocalPrefixes.syncConnectionsResult = .ok () ∧
    tunnelTask tickEnvNoLocalPrefixes = [] :=
  ⟨rfl, rfl⟩

/-- C6 (amended): a broadcast happens on a tick exactly when tunnel sync
succeeded, the connector prefixes were obtained, and both the local and the
remote prefix lists are non-empty; in particular no broadcast is attempted
when tunnel sync fails. -/
theorem tunnelTask_broadcast_iff (env : TickEnv) :
    ∀ cp, Action.broadcast cp ∈ tunnelTask env ↔
      (env.syncConnectionsResult = .ok () ∧ env.connectorPrefixes = .ok cp ∧
        cp.localPrefixes ≠ [] ∧ cp.remotePrefixes ≠ []) := by
  intro cp
  rcases hs : env.syncConnectionsResult with e | u
  · simp [tunnelTask, hs]
  · cases u
    rcases hp : env.connectorPrefixes with e | cp2
    · simp [tunnelTask, broadcastToAgents, hs, hp]
    · simp only [tunnelTask, broadcastToAgents, hs, hp]
      by_cases hlen : (cp2.remotePrefixes.length < 1 || cp2.localPrefixes.length < 1) = true
      · rw [if_pos hlen]
        simp only [Bool.or_eq_true, decide_eq_true_eq, Nat.lt_one_iff,
          List.length_eq_zero] at hlen
        simp only [List.not_mem_nil, false_iff]
        rintro ⟨-, hcp, hl, hr⟩
        injection hcp with hcp
        subst hcp
        tauto
      · rw [if_neg hlen]
        simp only [Bool.or_eq_true, decide_eq_true_eq, Nat.lt_one_iff,
          List.length_eq_zero, not_or] at hlen
        simp only [List.mem_singleton]
        constructor
        · rintro h
          injection h with h1
          subst h1
          exact ⟨trivial, rfl, hlen.2, hlen.1⟩
        · rintro ⟨-, hcp, -, -⟩
          injection hcp with hcp
          subst hcp
          rfl

/-- C7: `certHandler.Do` yields the deterministically named secret for the
node, whose certificate verifies against the CA with ServerAuth and
ClientAuth and whose CA field is the CA certificate; when the stored
certificate is missing or fails verification (e.g. expired), the result is
a freshly issued certificate with the endpoint ID as CN. -/
theorem certHandlerDo_ensures (ca : String) (validPeriod : Nat)
    (endpointID : String → String) (now : Nat) (node : String)
    (existing : Option TLSSecret) (hv : 0 < validPeriod) :
    (certHandlerDo ca validPeriod endpointID now node existing).secretName =
        getCertSecretName node ∧
    verifyCert (certHandlerDo ca validPeriod endpointID now node existing).cert now
        [.serverAuth, .clientAuth] = true ∧
    (certHandlerDo ca validPeriod endpointID now node existing).caCert = ca ∧
    ((existing = none ∨
        ∃ s, existing = some s ∧
          verifyCert s.cert now [.serverAuth, .clientAuth] = false) →
      (certHandlerDo ca validPeriod endpointID now node existing).cert.commonName =
          endpointID node ∧
      (certHandlerDo ca validPeriod endpointID now node existing).cert.notAfter =
          now + validPeriod) := by
  rcases existing with _ | s
  · simp only [certHandlerDo]
    refine ⟨rfl, ?_, rfl, fun _ => ⟨rfl, rfl⟩⟩
    simp [verifyCert, freshAgentSecret]
    omega
  · simp only [certHandlerDo]
    by_cases hkeep : (s.secretName == getCertSecretName node && s.caCert == ca &&
        verifyCert s.cert now [.serverAuth, .clientAuth]) = true
    · rw [if_pos hkeep]
      simp only [Bool.and_eq_true, beq_iff_eq] at hkeep
      refine ⟨hkeep.1.1, hkeep.2, hkeep.1.2, ?_⟩
      rintro (h | ⟨s2, hs2, hbad⟩)
      · exact absurd h (by simp)
      · injection hs2 with hs2
        subst hs2
        rw [hkeep.2] at hbad
        exact absurd hbad (by simp)
    · rw [if_neg hkeep]
      refine ⟨rfl, ?_, rfl, fun _ => ⟨rfl, rfl⟩⟩
      simp [verifyCert, freshAgentSecret]
      omega

/-- C7 witness: with no stored secret, `Do` yields the deterministic name. -/
theorem certHandlerDo_ensures_witness :
    (certHandlerDo "ca-pem" 1000 (fun n => "CN=" ++ n) 0 "edge1" none).secretName =
      getCertSecretName "edge1" :=
  (certHandlerDo_ensures "ca-pem" 1000 (fun n => "CN=" ++ n) 0 "edge1" none
    (by decide)).1

/-- C8 counterexample: the dotted name a.b is not an RFC-1123 label, yet
the cluster-name check accepts it (the regular expression admits DNS
subdomains, not just labels). -/
theorem validateClusterName_counterexample :
    validateClusterName "a.b" = none ∧ isRFC1123Label "a.b" = false := by
  constructor
  · decide
  · decide

/-- C8 (amended): every RFC-1123 DNS label passes the cluster-name check,
and the check passes exactly on the names matching the DNS-1123 subdomain
expression (dot-separated label-shaped groups, no length bound) — so
rejection is guaranteed only for names failing that expression, not for
every non-label. -/
theorem validateClusterName_spec (s : String) :
    (isRFC1123Label s = true → validateClusterName s = none) ∧
    (validateClusterName s = none ↔ dns1123RegMatch s = true) := by
  constructor
  · intro hlab
    simp only [isRFC1123Label, Bool.and_eq_true] at hlab
    obtain ⟨hlen, hgrp⟩ := hlab
    have hchars := groupMatch_chars hgrp
    have hnodot : ∀ c ∈ s.data, c ≠ '.' :=
      fun c hc => labelChar_dash_ne_dot (hchars c hc)
    have hre : dns1123RegMatch s = true := by
      unfold dns1123RegMatch
      rw [splitOnChar_eq_self hnodot]
      simp [hgrp]
    have hne : ¬s.length = 0 := by
      intro h0
      have hdata : s.data = [] := List.length_eq_zero.mp h0
      rw [hdata] at hgrp
      exact absurd hgrp (by decide)
    unfold validateClusterName
    rw [if_neg hne, if_neg (by simp [hre])]
  · unfold validateClusterName
    split_ifs with h0 hre
    · have hdata : s.data = [] := List.length_eq_zero.mp h0
      simp only [reduceCtorEq, false_iff]
      unfold dns1123RegMatch
      rw [hdata]
      decide
    · simp only [reduceCtorEq, false_iff]
      simp only [Bool.not_eq_true'] at hre
      simp [hre]
    · simp only [Bool.not_eq_true'] at hre
      simp [hre]

/-- C8 witness: a plain label passes the cluster-name check. -/
theorem validateClusterName_witness : validateClusterName "edge-cluster1" = none :=
  (validateClusterName_spec "edge-cluster1").1 (by decide)

/-- C9: when loading the kubeconfig fails (and the CNI stage before it
succeeded), `Options.Complete` returns nil and leaves Manager, Store,
APIServer and APIClient unassigned. -/
theorem complete_getConfig_failure (env : CompleteEnv) (e : String)
    (hcni : env.cniType = "flannel" ∨ (env.cniType = "calico" ∧ env.newAllocator = .ok ()))
    (hcfg : env.getConfig = .error e) :
    complete env = ⟨none, false, false, false, false⟩ := by
  unfold complete
  rcases hcni with h | ⟨h, ha⟩
  · rw [h]; simp [hcfg]
  · rw [h]; simp [hcfg, ha]

/-- C9 witness: a concrete run on which only kubeconfig loading fails. -/
theorem complete_getConfig_failure_witness :
    complete completeEnvBadKubeconfig = ⟨none, false, false, false, false⟩ :=
  complete_getConfig_failure completeEnvBadKubeconfig "failed to load kubeconfig"
    (Or.inl rfl) rfl

/-- C10: an endpoint with non-empty required fields whose subnets contain
an unparsable CIDR is still saved to the store by `recordEndpoints`; the
allocator records exactly the parseable subnets, skipping the unparsable
one. -/
theorem recordEndpoints_invalid_subnet (communities : List Community)
    (ep : TunnelEndpoint)
    (h1 : ep.publicAddresses ≠ []) (h2 : ep.subnets ≠ []) (h3 : ep.nodeSubnets ≠ [])
    (bad : String) (_hbad : bad ∈ ep.subnets) (_hparse : parseCIDR bad = none) :
    ep ∈ (recordEndpoints true ⟨[], [], []⟩ communities [ep]).endpoints ∧
    (recordEndpoints true ⟨[], [], []⟩ communities [ep]).allocatorRecords =
      ep.subnets.filterMap (fun c => (parseCIDR c).map Prod.snd) := by
  have hc : (ep.publicAddresses.isEmpty || ep.subnets.isEmpty || ep.nodeSubnets.isEmpty) = false := by
    simp [List.isEmpty_iff, h1, h2, h3]
  unfold recordEndpoints
  simp only [Bool.not_true, if_false, List.foldl_cons, List.foldl_nil]
  unfold recordNode
  rw [hc]
  simp only [Bool.false_eq_true, if_false]
  constructor
  · simp [saveEndpoint]
  · rw [foldl_record_subnets]
    simp

/-- C10 witness: the endpoint with subnet 10.40.300.0/24 (invalid octet) is
stored, and only its valid subnet is recorded by the allocator. -/
theorem recordEndpoints_invalid_subnet_witness :
    epEdge3BadSubnet ∈ (recordEndpoints true ⟨[], [], []⟩ [] [epEdge3BadSubnet]).endpoints ∧
    (recordEndpoints true ⟨[], [], []⟩ [] [epEdge3BadSubnet]).allocatorRecords =
      epEdge3BadSubnet.subnets.filterMap (fun c => (parseCIDR c).map Prod.snd) :=
  recordEndpoints_invalid_subnet [] epEdge3BadSubnet (by decide) (by decide) (by decide)
    "10.40.300.0/24" (by decide) (by decide)

end Fabedge
